import Mathlib

/-!
Verification of the snippets-agent content pipeline.

Shallow embedding of the content-classification, extraction and enrichment
pipeline of the snippets-agent repository.  The batch entry point lives in
`src/agent.py` (`process_urls` and its helper functions); the GUI worker
`AgentWorker` in `src/frontend.py` carries a duplicated copy of the same
logic whose leaf functions differ in several details.  Functions named
after the Python sources model those sources; names prefixed with
`AgentWorker_` model the corresponding methods of `AgentWorker` in
`src/frontend.py`.  External collaborators (the network, the PDF reader,
the transcript API, the AI model) are passed in as explicit oracle values
describing the outcome of each external call.
-/

namespace SnippetsAgent

/-! ## Python string primitives over `List Char` -/

/-- Python `str.lower()` on a character list (ASCII lowering, as used on URLs and
Content-Type header values in the sources). -/
def lowerL (s : List Char) : List Char := s.map Char.toLower

/-- Python `needle in haystack` substring test. -/
def containsSub (pat : List Char) : List Char → Bool
  | [] => pat.isPrefixOf []
  | c :: cs => pat.isPrefixOf (c :: cs) || containsSub pat cs

/-- Python `s.endswith(suf)`. -/
def endsWithL (suf s : List Char) : Bool := suf.isSuffixOf s

/-- Split a list at the first occurrence of `sep`, returning the parts
before and after it, or `none` when `sep` does not occur.  This is the
building block for Python's `str.split(sep, 1)` and for the model of
`urllib.parse.urlparse`. -/
def splitFirst (sep : List Char) : List Char → Option (List Char × List Char)
  | [] => if sep.isPrefixOf ([] : List Char) then some ([], []) else none
  | c :: cs =>
    if sep.isPrefixOf (c :: cs) then some ([], (c :: cs).drop sep.length)
    else
      match splitFirst sep cs with
      | some (a, b) => some (c :: a, b)
      | none => none

/-- Whitespace test used by Python's argument-less `str.split()`. -/
def isSpaceChar (c : Char) : Bool :=
  c = ' ' || c = '\t' || c = '\n' || c = '\r'

/-- Python `s.split()`: split on whitespace runs, dropping empty pieces. -/
def pySplit (s : String) : List String :=
  ((s.data.splitOnP isSpaceChar).filter (fun w => w ≠ [])).map (fun w => String.mk w)

/-- Python `os.path.basename` (POSIX): the part of a path after its last `/`. -/
def basenameL (p : List Char) : List Char :=
  (p.reverse.takeWhile (fun c => c ≠ '/')).reverse

/-- Python `s.rsplit('.', 1)[0]`: everything before the last dot, or the
whole string when it has no dot. -/
def beforeLastDot (s : List Char) : List Char :=
  if '.' ∈ s then (s.reverse.dropWhile (fun c => c ≠ '.')).drop 1 |>.reverse else s

/-! ## Model of the `urllib.parse` collaborator

`urlparse` and `parse_qs` are Python standard-library collaborators, not
repository code; the model below reproduces their behaviour for the
absolute `scheme://netloc/path?query#fragment` URLs (and scheme-less
plain strings) that the sources feed them. -/

structure ParsedUrl where
  netloc : List Char
  path : List Char
  query : List Char
deriving DecidableEq

/-- Everything before the first occurrence of `sep`, or the whole list
when `sep` does not occur. -/
def beforeFirst (sep s : List Char) : List Char :=
  match splitFirst sep s with
  | some (a, _) => a
  | none => s

/-- Split off the query at the first `?`: the part before it, and the
query after it (empty when there is no `?`). -/
def splitQuery (s : List Char) : List Char × List Char :=
  match splitFirst ['?'] s with
  | some (a, b) => (a, b)
  | none => (s, [])

/-- Extract (netloc, path) from a fragment- and query-free URL remainder:
with a `://`, the netloc runs from after it to the next `/` and the path
from that `/`; without one, the netloc is empty and the whole remainder
is the path. -/
def splitNetloc (s : List Char) : List Char × List Char :=
  match splitFirst [':', '/', '/'] s with
  | some (_, afterScheme) =>
      (afterScheme.takeWhile (fun c => c ≠ '/'),
       afterScheme.dropWhile (fun c => c ≠ '/'))
  | none => ([], s)

/-- Model of `urllib.parse.urlparse` restricted to the components the
sources read (`netloc`, `path`, `query`).  The fragment is split off at
the first `#`; the query at the first `?`; a netloc is present exactly
when the remainder contains `://`, and extends to the following `/`. -/
def urlparse (url : String) : ParsedUrl :=
  let s0 := beforeFirst ['#'] url.data
  let qr := splitQuery s0
  ⟨(splitNetloc qr.1).1, (splitNetloc qr.1).2, qr.2⟩

/-- Model of `urllib.parse.parse_qs(query)[key][0]` guarded by
`key in parse_qs(query)`: the first `key=value` field of the query with a
non-empty value (`parse_qs` drops blank values and fields without `=`). -/
def parse_qs_first (key : List Char) (query : List Char) : Option (List Char) :=
  ((query.splitOn '&').filterMap (fun part =>
    match splitFirst ['='] part with
    | some (k, v) => if v = [] then none else some (k, v)
    | none => none)).find? (fun kv => kv.1 = key) |>.map (fun kv => kv.2)

/-! ## agent.py: `extract_video_id_from_url` and `get_content_type` -/

/-- Model of `extract_video_id_from_url` (src/agent.py lines 39-48): a netloc
containing `youtube.com` yields the first non-blank `v` query value (or
nothing); otherwise a netloc containing `youtu.be` yields the path with
its leading character removed; otherwise nothing. -/
def extract_video_id_from_url (url : String) : Option (List Char) :=
  let p := urlparse url
  if containsSub "youtube.com".data p.netloc then
    parse_qs_first "v".data p.query
  else if containsSub "youtu.be".data p.netloc then
    some (p.path.drop 1)
  else
    none

/-- Python truthiness of the optional id string (`if extract_video_id_from_url(url):`):
a present, non-empty value. -/
def truthyOpt : Option (List Char) → Bool
  | some s => !s.isEmpty
  | none => false

/-- Outcome of one `requests` probe: a response carrying the value of its
`Content-Type` header (`''` when absent), or a raised `RequestException`. -/
inductive ProbeResult where
  | ok (contentType : String)
  | exn (msg : String)
deriving DecidableEq

/-- Whether a probe outcome is a raised `RequestException`. -/
def ProbeResult.isExn : ProbeResult → Bool
  | .ok _ => false
  | .exn _ => true

/-- Does this probe outcome declare `application/pdf` (after lowering)? -/
def declaresPdf : ProbeResult → Bool
  | .ok ct => containsSub "application/pdf".data (lowerL ct.data)
  | .exn _ => false

/-- Model of `get_content_type` (src/agent.py lines 90-110).  `headProbe` is the
outcome of the `requests.head` call, `getProbe` the outcome of the
`requests.get(stream=True)` retry that the code issues only when the head
probe raises. -/
def get_content_type (headProbe getProbe : ProbeResult) (url : String) : String :=
  if truthyOpt (extract_video_id_from_url url) then "youtube"
  else if endsWithL ".pdf".data (lowerL url.data) then "pdf"
  else
    match headProbe with
    | .ok ct =>
        if containsSub "application/pdf".data (lowerL ct.data) then "pdf" else "html"
    | .exn _ =>
        match getProbe with
        | .ok ct =>
            if containsSub "application/pdf".data (lowerL ct.data) then "pdf" else "html"
        | .exn _ => "error"

/-- Model of `AgentWorker.get_content_type` (src/frontend.py lines 198-207): the
video test is a plain substring test on the whole URL, and a raised head
probe returns `'error'` at once — there is no full-fetch retry. -/
def AgentWorker_get_content_type (headProbe : ProbeResult) (url : String) : String :=
  if containsSub "youtube.com".data url.data || containsSub "youtu.be".data url.data then
    "youtube"
  else if endsWithL ".pdf".data (lowerL url.data) then "pdf"
  else
    match headProbe with
    | .ok ct =>
        if containsSub "application/pdf".data (lowerL ct.data) then "pdf" else "html"
    | .exn _ => "error"

/-- The document-extension rule as the specification words it: the URL's
*path component* ends in `.pdf`, case-insensitively.  Stated from the
spec's words for comparison with the code's rule. -/
def spec_path_endswith_pdf (url : String) : Bool :=
  endsWithL ".pdf".data (lowerL (urlparse url).path)

/-! ## Extractors

An extractor returns the Python triple `(title, content, error)`: either
a successful `(title, content, None)` or `(None, None, error)`. -/

inductive ExtractResult where
  | ok (title text : String)
  | err (msg : String)
deriving DecidableEq

/-- Outcome of the transcript lookup against the YouTube transcript API
collaborator: the fetched segment texts in temporal order, or one of the
exceptions the sources distinguish (each carrying its `str(e)` rendering). -/
inductive TranscriptOutcome where
  | segments (texts : List String)
  | noTranscript (msg : String)
  | transcriptsDisabled (msg : String)
  | otherError (msg : String)
deriving DecidableEq

/-- Outcome of the secondary `requests.get` page fetch used for the video
title: a page whose `og:title` meta content is `ogTitle` (or absent), or a
raised `RequestException`. -/
inductive PageFetch where
  | ok (ogTitle : Option String)
  | exn (msg : String)
deriving DecidableEq

/-- Model of `extract_youtube_content` (src/agent.py lines 132-160): transcript
segments are joined with single spaces; the title comes from a secondary
page fetch whose `og:title` falls back to the sentinel `"No Title Found"`;
a raised page fetch is caught by the `requests.RequestException` handler
and fails the whole extraction. -/
def extract_youtube_content (transcript : TranscriptOutcome) (page : PageFetch)
    (url : String) : ExtractResult :=
  if !truthyOpt (extract_video_id_from_url url) then .err "Invalid YouTube URL"
  else
    match transcript with
    | .noTranscript _ => .err "No transcript found for this video."
    | .transcriptsDisabled _ => .err "Transcripts are disabled for this video."
    | .otherError m => .err ("An unexpected error occurred: " ++ m)
    | .segments texts =>
      match page with
      | .exn m => .err ("Failed to fetch YouTube page: " ++ m)
      | .ok og => .ok (og.getD "No Title Found") (String.intercalate " " texts)

/-- The inline video-id computation of `AgentWorker.extract_youtube_content`
(src/frontend.py lines 222-226): `url.split("v=")[1].split("&")[0]` for
URLs containing `youtube.com` (an `IndexError` escapes to the generic
handler when `v=` is absent), `url.split("/")[-1]` for URLs containing
`youtu.be`, nothing otherwise. -/
def AgentWorker_video_id (url : String) : Except String (Option (List Char)) :=
  if containsSub "youtube.com".data url.data then
    match splitFirst "v=".data url.data with
    | none => .error "list index out of range"
    | some (_, rest) =>
      let seg := match splitFirst "v=".data rest with
        | some (a, _) => a
        | none => rest
      .ok (some (seg.takeWhile (fun c => c ≠ '&')))
  else if containsSub "youtu.be".data url.data then
    .ok (some ((url.data.splitOn '/').getLastD []))
  else
    .ok none

/-- Model of `AgentWorker.extract_youtube_content` (src/frontend.py lines 220-238):
no page fetch is made; a successful transcript yields the synthesized
title `"YouTube Video: <id>"`; every exception is caught by one generic
handler returning `str(e)`. -/
def AgentWorker_extract_youtube_content (transcript : TranscriptOutcome)
    (url : String) : ExtractResult :=
  match AgentWorker_video_id url with
  | .error e => .err e
  | .ok vid? =>
    match vid? with
    | none => .err "Could not extract video ID from URL."
    | some vid =>
      if vid.isEmpty then .err "Could not extract video ID from URL."
      else
        match transcript with
        | .segments texts =>
            .ok ("YouTube Video: " ++ String.mk vid) (String.intercalate " " texts)
        | .noTranscript m => .err m
        | .transcriptsDisabled m => .err m
        | .otherError m => .err m

/-! ## Document download: staged-file selection -/

/-- The staged filename chosen by `download_pdf` (src/agent.py lines
170-174): the basename of the URL's path, with `".pdf"` appended when the
name does not already end in `.pdf` case-insensitively. -/
def download_pdf_filename (url : String) : List Char :=
  let filename := basenameL (urlparse url).path
  if endsWithL ".pdf".data (lowerL filename) then filename else filename ++ ".pdf".data

/-- The staged path of `download_pdf` (src/agent.py line 176),
`os.path.join(folder, filename)` for a folder without a trailing slash. -/
def download_pdf_filepath (folder url : String) : String :=
  folder ++ "/" ++ String.mk (download_pdf_filename url)

/-- Model of `download_pdf` (src/agent.py lines 164-183): `fetchError` is the
outcome of the streaming `requests.get` (a raised `RequestException`, or
success); on success the file is staged at `download_pdf_filepath` and
that path is returned. -/
def download_pdf (fetchError : Option String) (folder url : String) :
    Except String String :=
  match fetchError with
  | some e => .error e
  | none => .ok (download_pdf_filepath folder url)

/-- The staged path of `AgentWorker.download_pdf` (src/frontend.py lines
244-245): the raw basename of the URL's path, with no `.pdf` appending. -/
def AgentWorker_download_pdf_filepath (folder url : String) : String :=
  folder ++ "/" ++ String.mk (basenameL (urlparse url).path)

/-- Model of `AgentWorker.download_pdf` (src/frontend.py lines 240-249). -/
def AgentWorker_download_pdf (fetchError : Option String) (folder url : String) :
    Except String String :=
  match fetchError with
  | some e => .error e
  | none => .ok (AgentWorker_download_pdf_filepath folder url)

/-! ## Document parse -/

/-- Python truthiness of an optional metadata title (`metadata and metadata.title`):
metadata present, title present and non-empty.  The outer `Option` is the
`reader.metadata` object, the inner one its `.title` attribute. -/
def metaTitleTruthy : Option (Option String) → Bool
  | some (some t) => !t.isEmpty
  | _ => false

/-- The filename-derived fallback title of `extract_pdf_content`
(src/agent.py line 197): basename, `_` and `-` replaced by spaces,
extension stripped by `rsplit('.', 1)[0]`. -/
def pdf_fallback_title (filepath : String) : String :=
  String.mk (beforeLastDot ((basenameL filepath.data).map
    (fun c => if c = '_' || c = '-' then ' ' else c)))

/-- Model of `extract_pdf_content` (src/agent.py lines 185-205).  `ioError` models
the `except Exception` branch (unreadable file, parser failure);
`metadata` the `reader.metadata` object and its `.title`; `pages` the
per-page `extract_text()` results in page order. -/
def extract_pdf_content (ioError : Option String) (metadata : Option (Option String))
    (pages : List String) (filepath : String) : ExtractResult :=
  match ioError with
  | some e => .err e
  | none =>
    let title0 := if metaTitleTruthy metadata then
        (match metadata with | some (some t) => t | _ => "No Title Found")
      else "No Title Found"
    let title := if title0.isEmpty || title0 = "No Title Found" then
        pdf_fallback_title filepath
      else title0
    .ok title (String.join (pages.map (fun p => p ++ "\n")))

/-- Model of `AgentWorker.extract_pdf_content` (src/frontend.py lines 251-259): the
filename fallback strips only the extension (no separator replacement),
and page texts are joined without separators. -/
def AgentWorker_extract_pdf_content (ioError : Option String)
    (metadata : Option (Option String)) (pages : List String)
    (fpath : String) : ExtractResult :=
  match ioError with
  | some e => .err e
  | none =>
    let title := if metaTitleTruthy metadata then
        (match metadata with | some (some t) => t | _ => "")
      else String.mk (beforeLastDot (basenameL fpath.data))
    .ok title (String.join pages)

/-! ## Enrichment -/

/-- Model of `get_ai_summary` (src/agent.py lines 21-27 and src/frontend.py lines
47-50, identical): the first 60 whitespace-separated words re-joined with
single spaces, with `"..."` appended. -/
def get_ai_summary (content : String) : String :=
  String.intercalate " " ((pySplit content).take 60) ++ "..."

/-- Model of `get_seo_keywords` (src/agent.py lines 29-35): the first five words of
the title, lower-cased. -/
def get_seo_keywords (title : String) : List String :=
  ((pySplit title).take 5).map (fun w => String.mk (lowerL w.data))

/-- Model of `rewrite_summary_with_seo` (src/agent.py lines 50-55): the summary with
the parenthesized keyword list appended. -/
def rewrite_summary_with_seo (summary : String) (keywords : List String) : String :=
  summary ++ " (Keywords: " ++ String.intercalate ", " keywords ++ ")"

/-- Outcome of a `model.generate_content` call of the GUI worker when a
model is configured: the response text, or a raised exception. -/
inductive AiOutcome where
  | ok (text : String)
  | exn (msg : String)
deriving DecidableEq

/-- Model of `get_seo_keywords(model, title)` (src/frontend.py lines 52-63).  The
`model` argument is `none` when AI initialization failed (`model is None`),
otherwise the outcome of the generate call. -/
def AgentWorker_get_seo_keywords (model : Option AiOutcome) (title : String) :
    List String :=
  match model with
  | none => ["AI model not initialized"]
  | some (.ok text) => (text.splitOn ",").map (fun kw => kw.trim)
  | some (.exn e) => ["Error generating keywords: " ++ e]

/-- The markdown-stripping `re.sub(r'[*_`#\[\]()]+', '', text)` of
src/frontend.py line 76, as a character filter. -/
def stripMd (s : String) : String :=
  String.mk (s.data.filter (fun c =>
    !(c = '*' || c = '_' || c = '\x60' || c = '#' || c = '[' || c = ']' ||
      c = '(' || c = ')')))

/-- Model of `rewrite_summary_with_seo(model, summary, keywords)` (src/frontend.py
lines 67-79): with no model, the plain summary with the parenthesized
keyword list appended; with a model, the stripped and trimmed response. -/
def AgentWorker_rewrite_summary_with_seo (model : Option AiOutcome)
    (summary : String) (keywords : List String) : String :=
  match model with
  | none => summary ++ " (Keywords: " ++ String.intercalate ", " keywords ++ ")"
  | some (.ok text) => (stripMd text).trim
  | some (.exn e) => summary ++ " (Error rewriting summary: " ++ e ++ ")"

/-! ## The per-record state machine and the batch orchestrator

`process_urls` (src/agent.py lines 207-306) and `AgentWorker.run`
(src/frontend.py lines 97-196) drive the same three-pass loop over one
`url_data` dictionary per input URL; they differ only in the leaf
functions they call.  The orchestrator is therefore modelled once,
parameterized over those leaves (`Env`); instantiating `Env` with the
`agent.py` leaves gives the batch script, instantiating it with the
`AgentWorker` methods (and a fixed `model` argument) gives the GUI
worker.  The mutable `url_data` dictionaries become `Record` values held
in a list; the `pdf_files_to_process` side list of dictionary references
becomes a list of indices into that list, paired with the staged path. -/

/-- One `url_data` dictionary (src/agent.py lines 221-231,
src/frontend.py lines 117-121). -/
structure Record where
  source_url : String
  status : String
  content_type : String
  raw_content : String
  title : String
  initial_summary : String
  seo_keywords : List String
  final_summary : String
  error_message : String
deriving DecidableEq

/-- Out-of-range placeholder for list indexing (its `status` value
`"Pending"` and empty `content_type` occur in no freshly classified
record that reaches an index, so every lemma hypothesis about a real
status rules it out). -/
def defaultRecord : Record :=
  { source_url := "", status := "Pending", content_type := "",
    raw_content := "", title := "", initial_summary := "",
    seo_keywords := [], final_summary := "", error_message := "" }

/-- The leaf functions the orchestrator dispatches to.  Each is the
total-function abstraction of the corresponding Python callee, with the
external-world outcome already folded in. -/
structure Env where
  classify : String → String
  extract_html : String → ExtractResult
  extract_video : String → ExtractResult
  download : String → Except String String
  parse_pdf : String → ExtractResult
  summarize : String → String
  keywordsFn : String → List String
  rewriteFn : String → List String → String

/-- The branch dispatch of one classify-and-extract iteration, with the
already-computed content type `ct` passed in. -/
def processOneWith (E : Env) (url ct : String) : Record × Option String :=
  let r0 : Record :=
    { source_url := url, status := "Pending", content_type := ct,
      raw_content := "", title := "", initial_summary := "",
      seo_keywords := [], final_summary := "", error_message := "" }
  if ct = "html" then
    match E.extract_html url with
    | .err e => ({ r0 with status := "Error", error_message := e }, none)
    | .ok t c =>
        ({ r0 with title := t, raw_content := c, status := "Content Extracted" }, none)
  else if ct = "youtube" then
    match E.extract_video url with
    | .err e => ({ r0 with status := "Error", error_message := e }, none)
    | .ok t c =>
        ({ r0 with title := t, raw_content := c, status := "Content Extracted" }, none)
  else if ct = "pdf" then
    match E.download url with
    | .error e =>
        ({ r0 with status := "Error",
                   error_message := "Failed to download PDF: " ++ e }, none)
    | .ok fp => ({ r0 with status := "Downloaded" }, some fp)
  else
    ({ r0 with status := "Error",
               error_message := "Could not determine content type or URL is unreachable." },
     none)

/-- One iteration of the classify-and-extract loop (src/agent.py lines
217-271): builds the fresh record, dispatches on the classified type, and
returns the record together with the staged path to queue for the
deferred parse pass (present exactly when the record was downloaded). -/
def processOne (E : Env) (url : String) : Record × Option String :=
  processOneWith E url (E.classify url)

/-- The classify-and-extract pass over the whole batch, accumulating the
record list and the deferred-parse queue in input order. -/
def pass1Aux (E : Env) : List String → List Record → List (Nat × String) →
    List Record × List (Nat × String)
  | [], recs, queue => (recs, queue)
  | url :: rest, recs, queue =>
    let rq := processOne E url
    match rq.2 with
    | some fp => pass1Aux E rest (recs ++ [rq.1]) (queue ++ [(recs.length, fp)])
    | none => pass1Aux E rest (recs ++ [rq.1]) queue

/-- Pass 1 of `process_urls` / `AgentWorker.run`. -/
def pass1 (E : Env) (urls : List String) : List Record × List (Nat × String) :=
  pass1Aux E urls [] []

/-- The record update of the deferred document-parse loop (src/agent.py
lines 274-284). -/
def parseUpdate (E : Env) (fp : String) (r : Record) : Record :=
  match E.parse_pdf fp with
  | .err e =>
      { r with status := "Error",
               error_message := "Failed to extract content from PDF: " ++ e }
  | .ok t c => { r with title := t, raw_content := c, status := "Content Extracted" }

/-- Pass 2: the deferred document-parse loop, over the queued records in
queue order.  Each queue entry holds the index of the record the Python
code aliases by reference. -/
def pass2 (E : Env) : List Record → List (Nat × String) → List Record
  | recs, [] => recs
  | recs, (j, fp) :: rest =>
      pass2 E (recs.set j (parseUpdate E fp (recs.getD j defaultRecord))) rest

/-- The enrichment update of the AI-processing loop (src/agent.py lines
288-306): records whose status is `"Content Extracted"` are summarized,
keyworded and rewritten and become `"Processed"`; all others are left
untouched. -/
def enrichWith (summarize : String → String) (kw : String → List String)
    (rwf : String → List String → String) (r : Record) : Record :=
  if r.status = "Content Extracted" then
    let s := summarize r.raw_content
    let ks := kw r.title
    { r with initial_summary := s, raw_content := "", seo_keywords := ks,
             final_summary := rwf s ks, status := "Processed" }
  else r

/-- Pass 3: the AI-processing loop over the whole batch in input order. -/
def pass3 (E : Env) (recs : List Record) : List Record :=
  recs.map (enrichWith E.summarize E.keywordsFn E.rewriteFn)

/-- The full `process_urls` pipeline (src/agent.py lines 207-306): the
classify-and-extract pass, then the deferred document-parse pass over the
queued downloads, then the enrichment pass.  `AgentWorker.run`
(src/frontend.py lines 97-196) is the same composition over its own
leaves. -/
def process_urls (E : Env) (urls : List String) : List Record :=
  let rq := pass1 E urls
  pass3 E (pass2 E rq.1 rq.2)

/-! ## Concrete environments for running the pipeline on closed inputs

These instantiate the external-world oracles with fixed outcomes, so that
the pipeline can be evaluated on concrete batches. -/

/-- A world in which every URL is unclassifiable (both probes fail). -/
def errEnv : Env :=
  { classify := fun _ => "error",
    extract_html := fun _ => .err "unreachable",
    extract_video := fun _ => .err "unreachable",
    download := fun _ => .error "unreachable",
    parse_pdf := fun _ => .err "unreadable",
    summarize := get_ai_summary,
    keywordsFn := get_seo_keywords,
    rewriteFn := rewrite_summary_with_seo }

/-- A world in which every URL classifies as a document and both download
and parse succeed. -/
def pdfEnv : Env :=
  { classify := fun _ => "pdf",
    extract_html := fun _ => .err "unreachable",
    extract_video := fun _ => .err "unreachable",
    download := fun _ => .ok "/tmp/temp/paper.pdf",
    parse_pdf := fun _ => .ok "Paper" "Body text",
    summarize := get_ai_summary,
    keywordsFn := get_seo_keywords,
    rewriteFn := rewrite_summary_with_seo }

/-- A world in which every URL classifies as a web page and extraction
succeeds, enriched with the batch-mode AI placeholders. -/
def htmlEnv : Env :=
  { classify := fun _ => "html",
    extract_html := fun _ => .ok "Alpha Beta Gamma Delta Epsilon Zeta" "word1 word2 word3",
    extract_video := fun _ => .err "unreachable",
    download := fun _ => .error "unreachable",
    parse_pdf := fun _ => .err "unreadable",
    summarize := get_ai_summary,
    keywordsFn := get_seo_keywords,
    rewriteFn := rewrite_summary_with_seo }

/-- The GUI worker's enrichment leaves with no configured AI model
(`model is None`), over the same web-page world as `htmlEnv`. -/
def htmlEnvNoModel : Env :=
  { classify := fun _ => "html",
    extract_html := fun _ => .ok "Alpha Beta Gamma Delta Epsilon Zeta" "word1 word2 word3",
    extract_video := fun _ => .err "unreachable",
    download := fun _ => .error "unreachable",
    parse_pdf := fun _ => .err "unreadable",
    summarize := get_ai_summary,
    keywordsFn := AgentWorker_get_seo_keywords none,
    rewriteFn := AgentWorker_rewrite_summary_with_seo none }

/-- A concrete record as it stands after a successful extraction, ready
for the enrichment pass. -/
def sampleExtracted : Record :=
  { source_url := "https://s.example/a", status := "Content Extracted",
    content_type := "html", raw_content := "alpha beta gamma",
    title := "Alpha Beta Gamma Delta Epsilon Zeta", initial_summary := "",
    seo_keywords := [], final_summary := "", error_message := "" }

/-! ## List indexing helpers -/

theorem getD_append_left {α : Type} (l l' : List α) (i : Nat) (d : α)
    (h : i < l.length) : (l ++ l').getD i d = l.getD i d := by
  induction l generalizing i with
  | nil => simp at h
  | cons a t ih =>
    cases i with
    | zero => rfl
    | succ n =>
      simp only [List.cons_append, List.getD_cons_succ]
      exact ih n (by simpa using h)

theorem getD_snoc_length {α : Type} (l : List α) (a d : α) :
    (l ++ [a]).getD l.length d = a := by
  induction l with
  | nil => rfl
  | cons b t ih => simpa using ih

theorem getD_of_le {α : Type} (l : List α) (i : Nat) (d : α)
    (h : l.length ≤ i) : l.getD i d = d := by
  induction l generalizing i with
  | nil => cases i <;> rfl
  | cons a t ih =>
    cases i with
    | zero => simp at h
    | succ n => exact ih n (by simpa using h)

theorem getD_set_self {α : Type} (l : List α) (j : Nat) (a d : α)
    (h : j < l.length) : (l.set j a).getD j d = a := by
  induction l generalizing j with
  | nil => simp at h
  | cons b t ih =>
    cases j with
    | zero => rfl
    | succ n => exact ih n (by simpa using h)

theorem getD_set_ne {α : Type} (l : List α) (i j : Nat) (a d : α)
    (h : j ≠ i) : (l.set j a).getD i d = l.getD i d := by
  induction l generalizing i j with
  | nil => rfl
  | cons b t ih =>
    cases j with
    | zero => cases i with
      | zero => exact absurd rfl h
      | succ n => rfl
    | succ m => cases i with
      | zero => rfl
      | succ n => exact ih n m (fun hmn => h (by rw [hmn]))

theorem getD_map_lt {α β : Type} (f : α → β) (l : List α) (i : Nat)
    (d : α) (d' : β) (h : i < l.length) : (l.map f).getD i d' = f (l.getD i d) := by
  induction l generalizing i with
  | nil => simp at h
  | cons a t ih =>
    cases i with
    | zero => rfl
    | succ n => exact ih n (by simpa using h)

theorem getD_mem {α : Type} (l : List α) (i : Nat) (d : α)
    (h : i < l.length) : l.getD i d ∈ l := by
  induction l generalizing i with
  | nil => simp at h
  | cons a t ih =>
    cases i with
    | zero => exact List.mem_cons_self a t
    | succ n => exact List.mem_cons_of_mem a (ih n (by simpa using h))

theorem set_getD_self {α : Type} (l : List α) (j : Nat) (d : α) :
    l.set j (l.getD j d) = l := by
  induction l generalizing j with
  | nil => rfl
  | cons a t ih =>
    cases j with
    | zero => rfl
    | succ n => simpa using ih n

theorem set_of_le {α : Type} (l : List α) (j : Nat) (a : α)
    (h : l.length ≤ j) : l.set j a = l := by
  induction l generalizing j with
  | nil => rfl
  | cons b t ih =>
    cases j with
    | zero => simp at h
    | succ n => simpa using ih n (by simpa using h)

/-! ## Structural facts about the classify-and-extract step -/

theorem processOneWith_source (E : Env) (u ct : String) :
    (processOneWith E u ct).1.source_url = u := by
  simp only [processOneWith]
  split_ifs
  · cases E.extract_html u <;> rfl
  · cases E.extract_video u <;> rfl
  · cases E.download u <;> rfl
  · rfl

theorem processOne_source (E : Env) (u : String) :
    (processOne E u).1.source_url = u :=
  processOneWith_source E u (E.classify u)

theorem processOneWith_content_type (E : Env) (u ct : String) :
    (processOneWith E u ct).1.content_type = ct := by
  simp only [processOneWith]
  split_ifs
  · cases E.extract_html u <;> rfl
  · cases E.extract_video u <;> rfl
  · cases E.download u <;> rfl
  · rfl

theorem processOne_content_type (E : Env) (u : String) :
    (processOne E u).1.content_type = E.classify u :=
  processOneWith_content_type E u (E.classify u)

theorem processOneWith_status_of_downloaded (E : Env) (u ct : String)
    (h : (processOneWith E u ct).1.status = "Downloaded") : ct = "pdf" := by
  simp only [processOneWith] at h
  split_ifs at h with h1 h2 h3
  · cases hx : E.extract_html u <;> rw [hx] at h <;> simp at h
  · cases hx : E.extract_video u <;> rw [hx] at h <;> simp at h
  · exact h3
  · simp at h

theorem processOne_downloaded_imp_pdf (E : Env) (u : String)
    (h : (processOne E u).1.status = "Downloaded") :
    (processOne E u).1.content_type = "pdf" := by
  rw [processOne_content_type]
  exact processOneWith_status_of_downloaded E u (E.classify u) h

theorem processOne_pdf_status (E : Env) (u : String)
    (h : (processOne E u).1.content_type = "pdf") :
    (processOne E u).1.status = "Downloaded" ∨ (processOne E u).1.status = "Error" := by
  have hct : E.classify u = "pdf" := by
    rw [processOne_content_type] at h; exact h
  show (processOneWith E u (E.classify u)).1.status = "Downloaded" ∨
       (processOneWith E u (E.classify u)).1.status = "Error"
  rw [hct]
  simp only [processOneWith, reduceIte]
  cases E.download u
  · exact Or.inr rfl
  · exact Or.inl rfl

theorem processOneWith_queued_status (E : Env) (u ct fp : String)
    (h : (processOneWith E u ct).2 = some fp) :
    (processOneWith E u ct).1.status = "Downloaded" := by
  simp only [processOneWith] at h ⊢
  split_ifs at h ⊢ with h1 h2 h3
  · cases hx : E.extract_html u <;> rw [hx] at h <;> simp at h
  · cases hx : E.extract_video u <;> rw [hx] at h <;> simp at h
  · cases hx : E.download u
    · rw [hx] at h; simp at h
    · rfl

theorem processOne_queued_status (E : Env) (u : String) (fp : String)
    (h : (processOne E u).2 = some fp) :
    (processOne E u).1.status = "Downloaded" :=
  processOneWith_queued_status E u (E.classify u) fp h

theorem processOne_unclassified_status (E : Env) (u : String)
    (h1 : E.classify u ≠ "html") (h2 : E.classify u ≠ "youtube")
    (h3 : E.classify u ≠ "pdf") :
    (processOne E u).1.status = "Error" := by
  show (processOneWith E u (E.classify u)).1.status = "Error"
  simp only [processOneWith]
  rw [if_neg h1, if_neg h2, if_neg h3]

/-! ## Structural facts about the three passes -/

theorem pass1Aux_map_source (E : Env) : ∀ (urls : List String)
    (recs : List Record) (queue : List (Nat × String)),
    ((pass1Aux E urls recs queue).1).map Record.source_url =
      recs.map Record.source_url ++ urls := by
  intro urls
  induction urls with
  | nil => intro recs queue; simp [pass1Aux]
  | cons url rest ih =>
    intro recs queue
    simp only [pass1Aux]
    cases h : (processOne E url).2 with
    | some fp =>
      simp only [h, ih]
      simp [processOne_source]
    | none =>
      simp only [h, ih]
      simp [processOne_source]

theorem pass1_map_source (E : Env) (urls : List String) :
    ((pass1 E urls).1).map Record.source_url = urls := by
  simpa using pass1Aux_map_source E urls [] []

theorem pass1_length (E : Env) (urls : List String) :
    (pass1 E urls).1.length = urls.length := by
  have h := congrArg List.length (pass1_map_source E urls)
  simpa using h

theorem pass1Aux_queue_inv (E : Env) : ∀ (urls : List String)
    (recs : List Record) (queue : List (Nat × String)),
    (∀ jf ∈ queue, jf.1 < recs.length ∧
      (recs.getD jf.1 defaultRecord).status = "Downloaded") →
    ∀ jf ∈ (pass1Aux E urls recs queue).2,
      jf.1 < (pass1Aux E urls recs queue).1.length ∧
      ((pass1Aux E urls recs queue).1.getD jf.1 defaultRecord).status = "Downloaded" := by
  intro urls
  induction urls with
  | nil => intro recs queue hinv; simpa [pass1Aux] using hinv
  | cons url rest ih =>
    intro recs queue hinv
    simp only [pass1Aux]
    cases h : (processOne E url).2 with
    | some fp =>
      simp only [h]
      apply ih
      intro jf hjf
      rcases List.mem_append.mp hjf with hold | hnew
      · rcases hinv jf hold with ⟨hlt, hst⟩
        refine ⟨by simpa using Nat.lt_succ_of_lt hlt, ?_⟩
        rw [getD_append_left recs [(processOne E url).1] jf.1 defaultRecord hlt]
        exact hst
      · rcases List.mem_singleton.mp hnew with rfl
        refine ⟨by simp, ?_⟩
        simpa [getD_snoc_length] using processOne_queued_status E url fp h
    | none =>
      simp only [h]
      apply ih
      intro jf hjf
      rcases hinv jf hjf with ⟨hlt, hst⟩
      refine ⟨by simpa using Nat.lt_succ_of_lt hlt, ?_⟩
      rw [getD_append_left recs [(processOne E url).1] jf.1 defaultRecord hlt]
      exact hst

theorem pass1_queue_inv (E : Env) (urls : List String) :
    ∀ jf ∈ (pass1 E urls).2, jf.1 < (pass1 E urls).1.length ∧
      ((pass1 E urls).1.getD jf.1 defaultRecord).status = "Downloaded" := by
  exact pass1Aux_queue_inv E urls [] [] (by intro jf h; simp at h)

theorem pass1Aux_mem (E : Env) : ∀ (urls : List String)
    (recs : List Record) (queue : List (Nat × String)) (r : Record),
    r ∈ (pass1Aux E urls recs queue).1 →
    r ∈ recs ∨ ∃ u, r = (processOne E u).1 := by
  intro urls
  induction urls with
  | nil => intro recs queue r h; exact Or.inl (by simpa [pass1Aux] using h)
  | cons url rest ih =>
    intro recs queue r h
    simp only [pass1Aux] at h
    cases hfp : (processOne E url).2 with
    | some fp =>
      rw [hfp] at h
      rcases ih _ _ r h with hmem | hex
      · rcases List.mem_append.mp hmem with h1 | h2
        · exact Or.inl h1
        · exact Or.inr ⟨url, (List.mem_singleton.mp h2)⟩
      · exact Or.inr hex
    | none =>
      rw [hfp] at h
      rcases ih _ _ r h with hmem | hex
      · rcases List.mem_append.mp hmem with h1 | h2
        · exact Or.inl h1
        · exact Or.inr ⟨url, (List.mem_singleton.mp h2)⟩
      · exact Or.inr hex

theorem pass1_mem (E : Env) (urls : List String) (r : Record)
    (h : r ∈ (pass1 E urls).1) : ∃ u, r = (processOne E u).1 := by
  rcases pass1Aux_mem E urls [] [] r h with hmem | hex
  · simp at hmem
  · exact hex

theorem parseUpdate_source (E : Env) (fp : String) (r : Record) :
    (parseUpdate E fp r).source_url = r.source_url := by
  unfold parseUpdate; split <;> rfl

theorem parseUpdate_content_type (E : Env) (fp : String) (r : Record) :
    (parseUpdate E fp r).content_type = r.content_type := by
  unfold parseUpdate; split <;> rfl

theorem parseUpdate_status (E : Env) (fp : String) (r : Record) :
    (parseUpdate E fp r).status = "Error" ∨
    (parseUpdate E fp r).status = "Content Extracted" := by
  unfold parseUpdate
  split
  · exact Or.inl rfl
  · exact Or.inr rfl

theorem pass2_untouched (E : Env) : ∀ (q : List (Nat × String))
    (recs : List Record) (i : Nat), (∀ jf ∈ q, jf.1 ≠ i) →
    (pass2 E recs q).getD i defaultRecord = recs.getD i defaultRecord := by
  intro q
  induction q with
  | nil => intro recs i _; rfl
  | cons jf rest ih =>
    intro recs i hne
    simp only [pass2]
    rw [ih _ i (fun x hx => hne x (List.mem_cons_of_mem jf hx))]
    exact getD_set_ne recs i jf.1 _ defaultRecord (hne jf (List.mem_cons_self jf rest))

theorem pass2_length (E : Env) : ∀ (q : List (Nat × String)) (recs : List Record),
    (pass2 E recs q).length = recs.length := by
  intro q
  induction q with
  | nil => intro recs; rfl
  | cons jf rest ih => intro recs; simp only [pass2]; rw [ih]; exact List.length_set ..

theorem pass2_map_source (E : Env) : ∀ (q : List (Nat × String)) (recs : List Record),
    (pass2 E recs q).map Record.source_url = recs.map Record.source_url := by
  intro q
  induction q with
  | nil => intro recs; rfl
  | cons jf rest ih =>
    intro recs
    simp only [pass2]
    rw [ih]
    by_cases hj : jf.1 < recs.length
    · rw [List.map_set]
      rw [parseUpdate_source]
      have : Record.source_url (recs.getD jf.1 defaultRecord) =
          (recs.map Record.source_url).getD jf.1 (Record.source_url defaultRecord) :=
        (getD_map_lt Record.source_url recs jf.1 defaultRecord _ hj).symm
      rw [this]
      exact set_getD_self (recs.map Record.source_url) jf.1 _
    · rw [set_of_le recs jf.1 _ (Nat.le_of_not_lt hj)]

theorem pass2_content_type (E : Env) : ∀ (q : List (Nat × String))
    (recs : List Record) (i : Nat),
    ((pass2 E recs q).getD i defaultRecord).content_type =
      (recs.getD i defaultRecord).content_type := by
  intro q
  induction q with
  | nil => intro recs i; rfl
  | cons jf rest ih =>
    intro recs i
    simp only [pass2]
    rw [ih]
    by_cases hj : jf.1 < recs.length
    · by_cases hij : jf.1 = i
      · subst hij
        rw [getD_set_self recs jf.1 _ defaultRecord hj]
        exact parseUpdate_content_type E jf.2 _
      · rw [getD_set_ne recs i jf.1 _ defaultRecord hij]
    · rw [set_of_le recs jf.1 _ (Nat.le_of_not_lt hj)]

theorem pass2_status_cases (E : Env) : ∀ (q : List (Nat × String))
    (recs : List Record) (i : Nat),
    ((pass2 E recs q).getD i defaultRecord).status =
        (recs.getD i defaultRecord).status ∨
      ((pass2 E recs q).getD i defaultRecord).status = "Content Extracted" ∨
      ((pass2 E recs q).getD i defaultRecord).status = "Error" := by
  intro q
  induction q with
  | nil => intro recs i; exact Or.inl rfl
  | cons jf rest ih =>
    intro recs i
    simp only [pass2]
    rcases ih (recs.set jf.1 (parseUpdate E jf.2 (recs.getD jf.1 defaultRecord))) i with
      heq | hrest
    · rw [heq]
      by_cases hj : jf.1 < recs.length
      · by_cases hij : jf.1 = i
        · subst hij
          rw [getD_set_self recs jf.1 _ defaultRecord hj]
          rcases parseUpdate_status E jf.2 (recs.getD jf.1 defaultRecord) with h | h
          · exact Or.inr (Or.inr h)
          · exact Or.inr (Or.inl h)
        · rw [getD_set_ne recs i jf.1 _ defaultRecord hij]
          exact Or.inl rfl
      · rw [set_of_le recs jf.1 _ (Nat.le_of_not_lt hj)]
        exact Or.inl rfl
    · exact Or.inr hrest

theorem enrichWith_of_ne (s : String → String) (k : String → List String)
    (w : String → List String → String) (r : Record)
    (h : r.status ≠ "Content Extracted") : enrichWith s k w r = r := by
  unfold enrichWith
  rw [if_neg h]

theorem enrichWith_source (s : String → String) (k : String → List String)
    (w : String → List String → String) (r : Record) :
    (enrichWith s k w r).source_url = r.source_url := by
  unfold enrichWith; split <;> rfl

theorem enrichWith_content_type (s : String → String) (k : String → List String)
    (w : String → List String → String) (r : Record) :
    (enrichWith s k w r).content_type = r.content_type := by
  unfold enrichWith; split <;> rfl

theorem enrichWith_status (s : String → String) (k : String → List String)
    (w : String → List String → String) (r : Record) :
    (enrichWith s k w r).status = r.status ∨
    (enrichWith s k w r).status = "Processed" := by
  unfold enrichWith
  split
  · exact Or.inr rfl
  · exact Or.inl rfl

theorem pass3_getD (E : Env) (recs : List Record) (i : Nat) (h : i < recs.length) :
    (pass3 E recs).getD i defaultRecord =
      enrichWith E.summarize E.keywordsFn E.rewriteFn (recs.getD i defaultRecord) := by
  exact getD_map_lt _ recs i defaultRecord defaultRecord h

theorem pass3_length (E : Env) (recs : List Record) :
    (pass3 E recs).length = recs.length := List.length_map ..

theorem pass3_map_source (E : Env) (recs : List Record) :
    (pass3 E recs).map Record.source_url = recs.map Record.source_url := by
  unfold pass3
  rw [List.map_map]
  congr 1
  funext r
  exact enrichWith_source ..

/-- Each record produced by pass 1 is a `processOne` image. -/
theorem pass1_getD_spec (E : Env) (urls : List String) (i : Nat)
    (h : i < (pass1 E urls).1.length) :
    ∃ u, (pass1 E urls).1.getD i defaultRecord = (processOne E u).1 :=
  pass1_mem E urls _ (getD_mem _ i _ h)

/-- A record already `"Error"` (or `"Processed"`) after pass 1 is not in the
deferred-parse queue, so pass 2 leaves it untouched. -/
theorem pass2_frozen (E : Env) (urls : List String) (i : Nat)
    (h : ((pass1 E urls).1.getD i defaultRecord).status = "Error" ∨
         ((pass1 E urls).1.getD i defaultRecord).status = "Processed") :
    (pass2 E (pass1 E urls).1 (pass1 E urls).2).getD i defaultRecord =
      (pass1 E urls).1.getD i defaultRecord := by
  apply pass2_untouched
  intro jf hjf heq
  rcases pass1_queue_inv E urls jf hjf with ⟨_, hst⟩
  rw [heq] at hst
  rcases h with h | h <;> (rw [hst] at h; exact absurd h (by decide))

/-- Indices at or beyond the batch length hold the placeholder record,
whose status is `"Pending"`. -/
theorem pass1_getD_default (E : Env) (urls : List String) (i : Nat)
    (h : ¬ i < (pass1 E urls).1.length) :
    (pass1 E urls).1.getD i defaultRecord = defaultRecord :=
  getD_of_le _ i _ (Nat.le_of_not_lt h)

/-! ## Substring facts for the classifier claims -/

theorem splitFirst_fst_leading (sep : List Char) : ∀ (s a b : List Char),
    splitFirst sep s = some (a, b) → a <+: s := by
  intro s
  induction s with
  | nil =>
    intro a b h
    simp only [splitFirst] at h
    split_ifs at h
    · simp only [Option.some.injEq, Prod.mk.injEq] at h
      rw [← h.1]
  | cons c cs ih =>
    intro a b h
    simp only [splitFirst] at h
    split_ifs at h
    · simp only [Option.some.injEq, Prod.mk.injEq] at h
      rw [← h.1]
      exact List.nil_prefix
    · cases hrec : splitFirst sep cs with
      | some ab =>
        obtain ⟨a', b'⟩ := ab
        rw [hrec] at h
        simp only [Option.some.injEq, Prod.mk.injEq] at h
        rw [← h.1]
        obtain ⟨t, ht⟩ := ih a' b' hrec
        exact ⟨t, by rw [List.cons_append, ht]⟩
      | none => rw [hrec] at h; simp at h

theorem splitFirst_snd_suffix (sep : List Char) : ∀ (s a b : List Char),
    splitFirst sep s = some (a, b) → b <:+ s := by
  intro s
  induction s with
  | nil =>
    intro a b h
    simp only [splitFirst] at h
    split_ifs at h
    · simp only [Option.some.injEq, Prod.mk.injEq] at h
      rw [← h.2]
  | cons c cs ih =>
    intro a b h
    simp only [splitFirst] at h
    split_ifs at h
    · simp only [Option.some.injEq, Prod.mk.injEq] at h
      rw [← h.2]
      exact List.drop_suffix _ _
    · cases hrec : splitFirst sep cs with
      | some ab =>
        obtain ⟨a', b'⟩ := ab
        rw [hrec] at h
        simp only [Option.some.injEq, Prod.mk.injEq] at h
        rw [← h.2]
        exact (ih a' b' hrec).trans (List.suffix_cons c cs)
      | none => rw [hrec] at h; simp at h

theorem containsSub_iff (pat s : List Char) :
    containsSub pat s = true ↔ pat <:+: s := by
  induction s with
  | nil =>
    simp only [containsSub, List.isPrefixOf_iff_prefix]
    rw [List.infix_nil, List.prefix_nil]
  | cons c cs ih =>
    simp only [containsSub, Bool.or_eq_true, List.isPrefixOf_iff_prefix, ih]
    exact (List.infix_cons_iff).symm

theorem beforeFirst_leading (sep s : List Char) : beforeFirst sep s <+: s := by
  unfold beforeFirst
  cases h : splitFirst sep s with
  | some ab =>
    obtain ⟨a, b⟩ := ab
    exact splitFirst_fst_leading sep s a b h
  | none => exact List.prefix_rfl

theorem splitQuery_fst_leading (s : List Char) : (splitQuery s).1 <+: s := by
  unfold splitQuery
  cases h : splitFirst ['?'] s with
  | some ab =>
    obtain ⟨a, b⟩ := ab
    exact splitFirst_fst_leading _ s a b h
  | none => exact List.prefix_rfl

theorem splitNetloc_fst_within (s : List Char) : (splitNetloc s).1 <:+: s := by
  unfold splitNetloc
  cases h : splitFirst [':', '/', '/'] s with
  | some ab =>
    obtain ⟨a, b⟩ := ab
    have h1 : (b.takeWhile (fun c => c ≠ '/')) <+: b := List.takeWhile_prefix _
    have h2 : b <:+ s := splitFirst_snd_suffix _ s a b h
    exact List.IsInfix.trans (List.IsPrefix.isInfix h1) (List.IsSuffix.isInfix h2)
  | none => exact List.nil_infix

theorem urlparse_netloc_within (url : String) :
    (urlparse url).netloc <:+: url.data := by
  show (splitNetloc (splitQuery (beforeFirst ['#'] url.data)).1).1 <:+: url.data
  have h1 := splitNetloc_fst_within (splitQuery (beforeFirst ['#'] url.data)).1
  have h2 := List.IsPrefix.isInfix (splitQuery_fst_leading (beforeFirst ['#'] url.data))
  have h3 := List.IsPrefix.isInfix (beforeFirst_leading ['#'] url.data)
  exact List.IsInfix.trans h1 (List.IsInfix.trans h2 h3)

/-! ## Claim C3 -/

/-- C3: for every URL matching one of the two accepted video-hosting
shapes — which is exactly when `extract_video_id_from_url` yields a
non-empty id — both classifiers return `"youtube"` for every probe
outcome whatsoever: the video result is decided before and independently
of any network probe. -/
theorem video_shape_classification_ignores_probe (url : String)
    (headProbe getProbe headProbe' : ProbeResult)
    (hvid : truthyOpt (extract_video_id_from_url url) = true) :
    get_content_type headProbe getProbe url = "youtube" ∧
    AgentWorker_get_content_type headProbe' url = "youtube" := by
  have hnet := urlparse_netloc_within url
  constructor
  · simp only [get_content_type, hvid, if_true]
  · have hcond : containsSub "youtube.com".data url.data = true ∨
        containsSub "youtu.be".data url.data = true := by
      by_cases hyt : containsSub "youtube.com".data (urlparse url).netloc = true
      · left
        rw [containsSub_iff] at hyt ⊢
        exact hyt.trans hnet
      · by_cases hyb : containsSub "youtu.be".data (urlparse url).netloc = true
        · right
          rw [containsSub_iff] at hyb ⊢
          exact hyb.trans hnet
        · exfalso
          have hnone : extract_video_id_from_url url = none := by
            simp only [extract_video_id_from_url]
            rw [if_neg hyt, if_neg hyb]
          rw [hnone] at hvid
          exact absurd hvid (by decide)
    have hor : (containsSub "youtube.com".data url.data ||
        containsSub "youtu.be".data url.data) = true := by
      rcases hcond with hc | hc <;> simp [hc]
    simp only [AgentWorker_get_content_type, hor, if_true]

/-- Witness for C3: the sample watch-URL of the repository classifies as
`"youtube"` in both classifiers even when every probe raises. -/
theorem video_shape_classification_ignores_probe_witness :
    truthyOpt (extract_video_id_from_url
      "https://www.youtube.com/watch?v=dQw4w9WgXcQ") = true ∧
    get_content_type (ProbeResult.exn "timeout") (ProbeResult.exn "timeout")
      "https://www.youtube.com/watch?v=dQw4w9WgXcQ" = "youtube" ∧
    AgentWorker_get_content_type (ProbeResult.exn "timeout")
      "https://www.youtube.com/watch?v=dQw4w9WgXcQ" = "youtube" := by
  refine ⟨by decide, ?_, ?_⟩
  · exact (video_shape_classification_ignores_probe
      "https://www.youtube.com/watch?v=dQw4w9WgXcQ"
      (ProbeResult.exn "timeout") (ProbeResult.exn "timeout")
      (ProbeResult.exn "timeout") (by decide)).1
  · exact (video_shape_classification_ignores_probe
      "https://www.youtube.com/watch?v=dQw4w9WgXcQ"
      (ProbeResult.exn "timeout") (ProbeResult.exn "timeout")
      (ProbeResult.exn "timeout") (by decide)).2

/-! ## Claim C6 (corrected) -/

/-- C6 counterexample: the claim says a failed metadata-only probe is
retried once with a full fetch and only failure of both yields the error
type; but the GUI worker's classifier returns `"error"` as soon as the
head probe raises, with no retry — on the same URL and head failure, the
batch classifier's full-fetch retry succeeds and yields `"html"`. -/
theorem gui_classifier_no_retry_counterexample :
    AgentWorker_get_content_type (ProbeResult.exn "timeout") "http://a.com/x" = "error" ∧
    get_content_type (ProbeResult.exn "timeout") (ProbeResult.ok "text/html")
      "http://a.com/x" = "html" :=
  ⟨by decide, by decide⟩

/-- C6 amended: for a URL matching no video shape and without the `.pdf`
suffix, the batch classifier (`get_content_type`, src/agent.py) returns
`"error"` iff both the head probe and the full-fetch retry raise, while
the GUI worker's classifier consults only the head probe and returns
`"error"` iff it raises; in either case an `"error"` classification is
terminal — pass 1 marks such a record `"Error"`. -/
theorem classifier_error_requires_probe_failures (url : String)
    (headProbe getProbe : ProbeResult)
    (hvid : truthyOpt (extract_video_id_from_url url) = false)
    (hpdf : endsWithL ".pdf".data (lowerL url.data) = false) :
    (get_content_type headProbe getProbe url = "error" ↔
      headProbe.isExn = true ∧ getProbe.isExn = true) ∧
    (containsSub "youtube.com".data url.data = false →
     containsSub "youtu.be".data url.data = false →
      (AgentWorker_get_content_type headProbe url = "error" ↔
        headProbe.isExn = true)) ∧
    (∀ E : Env, E.classify url = "error" →
      (processOne E url).1.status = "Error") := by
  refine ⟨?_, ?_, ?_⟩
  · simp only [get_content_type, hvid, hpdf, Bool.false_eq_true, if_false]
    cases headProbe with
    | ok ct =>
      by_cases hd : containsSub "application/pdf".data (lowerL ct.data) = true <;>
        simp [hd, ProbeResult.isExn]
    | exn m =>
      cases getProbe with
      | ok ct =>
        by_cases hd : containsSub "application/pdf".data (lowerL ct.data) = true <;>
          simp [hd, ProbeResult.isExn]
      | exn m' => simp [ProbeResult.isExn]
  · intro h1 h2
    simp only [AgentWorker_get_content_type, h1, h2, hpdf, Bool.or_self,
      Bool.false_eq_true, if_false]
    cases headProbe with
    | ok ct =>
      by_cases hd : containsSub "application/pdf".data (lowerL ct.data) = true <;>
        simp [hd, ProbeResult.isExn]
    | exn m => simp [ProbeResult.isExn]
  · intro E hcls
    apply processOne_unclassified_status <;> rw [hcls] <;> decide

/-- Witness for C6 (amended): with both probes raising on a plain URL,
the batch classifier returns `"error"`. -/
theorem classifier_error_requires_probe_failures_witness :
    truthyOpt (extract_video_id_from_url "http://b.example/page") = false ∧
    endsWithL ".pdf".data (lowerL "http://b.example/page".data) = false ∧
    (get_content_type (ProbeResult.exn "t1") (ProbeResult.exn "t2")
        "http://b.example/page" = "error" ↔
      (ProbeResult.exn "t1").isExn = true ∧ (ProbeResult.exn "t2").isExn = true) := by
  refine ⟨by decide, by decide, ?_⟩
  exact (classifier_error_requires_probe_failures "http://b.example/page"
    (ProbeResult.exn "t1") (ProbeResult.exn "t2") (by decide) (by decide)).1

/-! ## Claim C7 (corrected) -/

/-- C7 counterexample: the claim says the extension rule tests the URL's
path component, so that a query string after a `.pdf` path would not
matter; in fact both classifiers test the WHOLE URL string.  A URL whose
path ends in `.pdf` but which carries a query is NOT classified `"pdf"`
by the suffix rule (here the probe says text/html and the result is
`"html"`), while a URL whose path lacks the extension but whose query
ends in `.pdf` IS classified `"pdf"`. -/
theorem extension_rule_whole_url_counterexample :
    spec_path_endswith_pdf "http://a.com/doc.pdf?x=1" = true ∧
    get_content_type (ProbeResult.ok "text/html") (ProbeResult.ok "text/html")
      "http://a.com/doc.pdf?x=1" = "html" ∧
    AgentWorker_get_content_type (ProbeResult.ok "text/html")
      "http://a.com/doc.pdf?x=1" = "html" ∧
    spec_path_endswith_pdf "http://a.com/d?f=x.pdf" = false ∧
    get_content_type (ProbeResult.ok "text/html") (ProbeResult.ok "text/html")
      "http://a.com/d?f=x.pdf" = "pdf" :=
  ⟨by decide, by decide, by decide, by decide, by decide⟩

/-- C7 amended: for every URL not matching a video shape, the batch
classifier returns `"pdf"` exactly when the whole URL string, lower-cased,
ends in `".pdf"`, or a probe it consults declares `application/pdf` (the
head probe, or the full-fetch retry when the head probe raises); the GUI
worker's classifier likewise, with only the head probe available. -/
theorem pdf_suffix_rule (url : String) (headProbe getProbe : ProbeResult)
    (hvid : truthyOpt (extract_video_id_from_url url) = false) :
    (get_content_type headProbe getProbe url = "pdf" ↔
      endsWithL ".pdf".data (lowerL url.data) = true ∨
      declaresPdf headProbe = true ∨
      (headProbe.isExn = true ∧ declaresPdf getProbe = true)) ∧
    (containsSub "youtube.com".data url.data = false →
     containsSub "youtu.be".data url.data = false →
      (AgentWorker_get_content_type headProbe url = "pdf" ↔
        endsWithL ".pdf".data (lowerL url.data) = true ∨
        declaresPdf headProbe = true)) := by
  constructor
  · simp only [get_content_type, hvid, Bool.false_eq_true, if_false]
    by_cases hpdf : endsWithL ".pdf".data (lowerL url.data) = true
    · simp [hpdf]
    · cases headProbe with
      | ok ct =>
        by_cases hd : containsSub "application/pdf".data (lowerL ct.data) = true <;>
          simp [hpdf, hd, declaresPdf, ProbeResult.isExn]
      | exn m =>
        cases getProbe with
        | ok ct =>
          by_cases hd : containsSub "application/pdf".data (lowerL ct.data) = true <;>
            simp [hpdf, hd, declaresPdf, ProbeResult.isExn]
        | exn m' => simp [hpdf, declaresPdf, ProbeResult.isExn]
  · intro h1 h2
    simp only [AgentWorker_get_content_type, h1, h2, Bool.or_self,
      Bool.false_eq_true, if_false]
    by_cases hpdf : endsWithL ".pdf".data (lowerL url.data) = true
    · simp [hpdf]
    · cases headProbe with
      | ok ct =>
        by_cases hd : containsSub "application/pdf".data (lowerL ct.data) = true <;>
          simp [hpdf, hd, declaresPdf, ProbeResult.isExn]
      | exn m => simp [hpdf, declaresPdf, ProbeResult.isExn]

/-- Witness for C7 (amended): a URL ending in `.PDF` classifies as
`"pdf"` in the batch classifier even with both probes raising. -/
theorem pdf_suffix_rule_witness :
    truthyOpt (extract_video_id_from_url "https://c.example/files/report.PDF") = false ∧
    (get_content_type (ProbeResult.exn "t") (ProbeResult.exn "t")
        "https://c.example/files/report.PDF" = "pdf" ↔
      endsWithL ".pdf".data (lowerL "https://c.example/files/report.PDF".data) = true ∨
      declaresPdf (ProbeResult.exn "t") = true ∨
      ((ProbeResult.exn "t").isExn = true ∧ declaresPdf (ProbeResult.exn "t") = true)) := by
  refine ⟨by decide, ?_⟩
  exact (pdf_suffix_rule "https://c.example/files/report.PDF"
    (ProbeResult.exn "t") (ProbeResult.exn "t") (by decide)).1

/-! ## Claim C1 -/

/-- C1: for every record of a batch, status is monotonic and `Error` is
absorbing.  A record whose status after the classify-and-extract pass is
`"Error"` (or `"Processed"`) is returned unchanged — every field — by the
deferred document-parse pass and by the whole pipeline; a record whose
status after the deferred document-parse pass is `"Error"` or
`"Processed"` is returned unchanged by the enrichment pass.  This holds
for every environment of leaf functions, hence both for the batch script
and for the GUI worker. -/
theorem status_monotonic_error_absorbing (E : Env) (urls : List String) (i : Nat) :
    ((((pass1 E urls).1.getD i defaultRecord).status = "Error" ∨
        ((pass1 E urls).1.getD i defaultRecord).status = "Processed") →
      (pass2 E (pass1 E urls).1 (pass1 E urls).2).getD i defaultRecord =
          (pass1 E urls).1.getD i defaultRecord ∧
      (process_urls E urls).getD i defaultRecord =
          (pass1 E urls).1.getD i defaultRecord) ∧
    ((((pass2 E (pass1 E urls).1 (pass1 E urls).2).getD i defaultRecord).status = "Error" ∨
        ((pass2 E (pass1 E urls).1 (pass1 E urls).2).getD i defaultRecord).status = "Processed") →
      (process_urls E urls).getD i defaultRecord =
        (pass2 E (pass1 E urls).1 (pass1 E urls).2).getD i defaultRecord) := by
  have hpu : process_urls E urls = pass3 E (pass2 E (pass1 E urls).1 (pass1 E urls).2) := rfl
  constructor
  · intro h1
    have h2 := pass2_frozen E urls i h1
    refine ⟨h2, ?_⟩
    by_cases hi : i < (pass1 E urls).1.length
    · have hi2 : i < (pass2 E (pass1 E urls).1 (pass1 E urls).2).length := by
        rw [pass2_length]; exact hi
      rw [hpu, pass3_getD E _ i hi2, h2, enrichWith_of_ne]
      intro hce
      rcases h1 with h | h <;> (rw [hce] at h; exact absurd h (by decide))
    · have hd := pass1_getD_default E urls i hi
      rw [hd] at h1
      rcases h1 with h | h <;> exact absurd h (by decide)
  · intro h1
    by_cases hi : i < (pass2 E (pass1 E urls).1 (pass1 E urls).2).length
    · rw [hpu, pass3_getD E _ i hi, enrichWith_of_ne]
      intro hce
      rcases h1 with h | h <;> (rw [hce] at h; exact absurd h (by decide))
    · have hd : (pass2 E (pass1 E urls).1 (pass1 E urls).2).getD i defaultRecord =
          defaultRecord := getD_of_le _ i _ (Nat.le_of_not_lt hi)
      rw [hd] at h1
      rcases h1 with h | h <;> exact absurd h (by decide)

/-- Witness for C1: in a world where classification fails, the single
record is `"Error"` after pass 1 and is bit-for-bit unchanged by the two
later passes. -/
theorem status_monotonic_error_absorbing_witness :
    ((pass1 errEnv ["https://x.invalid/a"]).1.getD 0 defaultRecord).status = "Error" ∧
    (pass2 errEnv (pass1 errEnv ["https://x.invalid/a"]).1
        (pass1 errEnv ["https://x.invalid/a"]).2).getD 0 defaultRecord =
      (pass1 errEnv ["https://x.invalid/a"]).1.getD 0 defaultRecord ∧
    (process_urls errEnv ["https://x.invalid/a"]).getD 0 defaultRecord =
      (pass1 errEnv ["https://x.invalid/a"]).1.getD 0 defaultRecord := by
  refine ⟨by decide, ?_, ?_⟩
  · exact ((status_monotonic_error_absorbing errEnv ["https://x.invalid/a"] 0).1
      (Or.inl (by decide))).1
  · exact ((status_monotonic_error_absorbing errEnv ["https://x.invalid/a"] 0).1
      (Or.inl (by decide))).2

/-! ## Claim C2 -/

/-- C2: processing produces exactly one output record per input URL, and
the i-th output record's `source_url` equals the i-th input URL — mapping
`source_url` over the output of `process_urls` gives back the input list,
and the lengths agree — for every environment of leaf functions, i.e.
regardless of any per-record classification, extraction or enrichment
failure. -/
theorem process_urls_preserves_sources (E : Env) (urls : List String) :
    (process_urls E urls).map Record.source_url = urls ∧
    (process_urls E urls).length = urls.length := by
  have h : (process_urls E urls).map Record.source_url = urls := by
    show (pass3 E (pass2 E (pass1 E urls).1 (pass1 E urls).2)).map Record.source_url = urls
    rw [pass3_map_source, pass2_map_source, pass1_map_source]
  refine ⟨h, ?_⟩
  have hlen := congrArg List.length h
  simpa using hlen

/-! ## Claim C5 -/

/-- C5: a record has status `"Downloaded"` — at any pass boundary — only
when its content type is `"pdf"` (the document type), and a document
record that has reached `"Content Extracted"` after the deferred
document-parse pass was `"Downloaded"` at the end of the
classify-and-extract pass.  Pass ordering (all downloads before any
parse) is structural: `process_urls` is literally the composition of
`pass3`, `pass2` and `pass1`. -/
theorem document_downloaded_invariant (E : Env) (urls : List String) (i : Nat) :
    (((pass1 E urls).1.getD i defaultRecord).status = "Downloaded" →
       ((pass1 E urls).1.getD i defaultRecord).content_type = "pdf") ∧
    (((pass2 E (pass1 E urls).1 (pass1 E urls).2).getD i defaultRecord).status =
        "Downloaded" →
       ((pass2 E (pass1 E urls).1 (pass1 E urls).2).getD i defaultRecord).content_type =
        "pdf") ∧
    (((process_urls E urls).getD i defaultRecord).status = "Downloaded" →
       ((process_urls E urls).getD i defaultRecord).content_type = "pdf") ∧
    (((pass2 E (pass1 E urls).1 (pass1 E urls).2).getD i defaultRecord).content_type =
        "pdf" →
     ((pass2 E (pass1 E urls).1 (pass1 E urls).2).getD i defaultRecord).status =
        "Content Extracted" →
       ((pass1 E urls).1.getD i defaultRecord).status = "Downloaded") := by
  have hpu : process_urls E urls = pass3 E (pass2 E (pass1 E urls).1 (pass1 E urls).2) := rfl
  have hct2 := pass2_content_type E (pass1 E urls).2 (pass1 E urls).1 i
  have hp1 : ((pass1 E urls).1.getD i defaultRecord).status = "Downloaded" →
      ((pass1 E urls).1.getD i defaultRecord).content_type = "pdf" := by
    intro h
    by_cases hi : i < (pass1 E urls).1.length
    · rcases pass1_getD_spec E urls i hi with ⟨u, hu⟩
      rw [hu] at h ⊢
      exact processOne_downloaded_imp_pdf E u h
    · rw [pass1_getD_default E urls i hi] at h
      exact absurd h (by decide)
  have hp2 : ((pass2 E (pass1 E urls).1 (pass1 E urls).2).getD i defaultRecord).status =
      "Downloaded" →
      ((pass2 E (pass1 E urls).1 (pass1 E urls).2).getD i defaultRecord).content_type =
      "pdf" := by
    intro h
    rcases pass2_status_cases E (pass1 E urls).2 (pass1 E urls).1 i with he | hce | herr
    · rw [hct2]
      apply hp1
      rw [← he]
      exact h
    · rw [h] at hce; exact absurd hce (by decide)
    · rw [h] at herr; exact absurd herr (by decide)
  refine ⟨hp1, hp2, ?_, ?_⟩
  · intro h
    by_cases hi : i < (pass2 E (pass1 E urls).1 (pass1 E urls).2).length
    · rw [hpu, pass3_getD E _ i hi] at h ⊢
      rw [enrichWith_content_type]
      rcases enrichWith_status E.summarize E.keywordsFn E.rewriteFn
          ((pass2 E (pass1 E urls).1 (pass1 E urls).2).getD i defaultRecord) with
        hsame | hproc
      · rw [h] at hsame
        exact hp2 hsame.symm
      · rw [h] at hproc; exact absurd hproc (by decide)
    · rw [hpu] at h
      have hd : (pass3 E (pass2 E (pass1 E urls).1 (pass1 E urls).2)).getD i
          defaultRecord = defaultRecord := by
        apply getD_of_le
        rw [pass3_length]
        exact Nat.le_of_not_lt hi
      rw [hd] at h
      exact absurd h (by decide)
  · intro hctp hst
    have h1ct : ((pass1 E urls).1.getD i defaultRecord).content_type = "pdf" := by
      rw [← hct2]; exact hctp
    by_cases hi : i < (pass1 E urls).1.length
    · rcases pass1_getD_spec E urls i hi with ⟨u, hu⟩
      have hps := processOne_pdf_status E u (by rw [← hu]; exact h1ct)
      rw [← hu] at hps
      rcases hps with hd | herr
      · exact hd
      · exfalso
        have hfroz := pass2_frozen E urls i (Or.inl herr)
        rw [hfroz] at hst
        rw [herr] at hst
        exact absurd hst (by decide)
    · exfalso
      have hd : (pass2 E (pass1 E urls).1 (pass1 E urls).2).getD i defaultRecord =
          defaultRecord := by
        apply getD_of_le
        rw [pass2_length]
        exact Nat.le_of_not_lt hi
      rw [hd] at hst
      exact absurd hst (by decide)

/-! ## Claim C4 (corrected) -/

/-- The GUI worker's no-model rewrite fallback is the same append-keywords
computation as the batch placeholder. -/
theorem AgentWorker_rewrite_noModel_eq (s : String) (k : List String) :
    AgentWorker_rewrite_summary_with_seo none s k = rewrite_summary_with_seo s k := rfl

/-- The appended-keyword fallback summary is never empty. -/
theorem rewrite_fallback_pos (s : String) (k : List String) :
    0 < (rewrite_summary_with_seo s k).length := by
  show 0 < (s ++ " (Keywords: " ++ String.intercalate ", " k ++ ")").length
  rw [String.length_append, String.length_append, String.length_append]
  have h : 0 < (" (Keywords: " : String).length := by decide
  omega

/-- C4 counterexample: the claim says that with the AI capability absent
the keyword fallback is the first few title words, lower-cased; but the
GUI worker's `get_seo_keywords` with `model = None` returns the fixed
placeholder list `["AI model not initialized"]`, not the title-derived
list that the batch fallback computes. -/
theorem gui_keyword_fallback_counterexample :
    AgentWorker_get_seo_keywords none "Alpha Beta Gamma" = ["AI model not initialized"] ∧
    AgentWorker_get_seo_keywords none "Alpha Beta Gamma" ≠
      get_seo_keywords "Alpha Beta Gamma" ∧
    get_seo_keywords "Alpha Beta Gamma" = ["alpha", "beta", "gamma"] :=
  ⟨rfl, by decide, by decide⟩

/-- C4 amended: with the AI capability absent, every record with status
`"Content Extracted"` reaches `"Processed"` with a non-empty
`final_summary` under both enrichment variants, and enrichment never sets
`"Error"`; the summary fallback is the leading-words truncation and the
rewrite fallback appends the parenthesized keyword list in both variants,
but the keyword fallback differs: the batch placeholder takes the first
five title words lower-cased, while the GUI worker with `model = None`
produces the fixed list `["AI model not initialized"]`. -/
theorem enrichment_absent_ai_degraded (r : Record)
    (h : r.status = "Content Extracted") :
    (enrichWith get_ai_summary get_seo_keywords rewrite_summary_with_seo r).status =
      "Processed" ∧
    (enrichWith get_ai_summary (AgentWorker_get_seo_keywords none)
        (AgentWorker_rewrite_summary_with_seo none) r).status = "Processed" ∧
    0 < (enrichWith get_ai_summary get_seo_keywords rewrite_summary_with_seo
        r).final_summary.length ∧
    0 < (enrichWith get_ai_summary (AgentWorker_get_seo_keywords none)
        (AgentWorker_rewrite_summary_with_seo none) r).final_summary.length ∧
    (enrichWith get_ai_summary get_seo_keywords rewrite_summary_with_seo r).seo_keywords =
      get_seo_keywords r.title ∧
    (enrichWith get_ai_summary get_seo_keywords rewrite_summary_with_seo
        r).final_summary =
      rewrite_summary_with_seo (get_ai_summary r.raw_content) (get_seo_keywords r.title) ∧
    (enrichWith get_ai_summary (AgentWorker_get_seo_keywords none)
        (AgentWorker_rewrite_summary_with_seo none) r).seo_keywords =
      ["AI model not initialized"] ∧
    (∀ (s : String → String) (k : String → List String)
        (w : String → List String → String) (r' : Record),
       r'.status ≠ "Error" → (enrichWith s k w r').status ≠ "Error") := by
  refine ⟨?_, ?_, ?_, ?_, ?_, ?_, ?_, ?_⟩
  · simp [enrichWith, h]
  · simp [enrichWith, h]
  · simp only [enrichWith, h, if_pos]
    exact rewrite_fallback_pos _ _
  · simp only [enrichWith, h, if_pos]
    rw [AgentWorker_rewrite_noModel_eq]
    exact rewrite_fallback_pos _ _
  · simp [enrichWith, h]
  · simp [enrichWith, h]
  · simp [enrichWith, h, AgentWorker_get_seo_keywords]
  · intro s k w r' hne
    unfold enrichWith
    split_ifs with hce
    · simp
    · exact hne

/-- Witness for C4 (amended): a concrete extracted record is processed by
both enrichment variants; the GUI variant's keywords are the placeholder
list. -/
theorem enrichment_absent_ai_degraded_witness :
    sampleExtracted.status = "Content Extracted" ∧
    (enrichWith get_ai_summary get_seo_keywords rewrite_summary_with_seo
        sampleExtracted).status = "Processed" ∧
    (enrichWith get_ai_summary (AgentWorker_get_seo_keywords none)
        (AgentWorker_rewrite_summary_with_seo none) sampleExtracted).seo_keywords =
      ["AI model not initialized"] := by
  refine ⟨by decide, ?_, ?_⟩
  · exact (enrichment_absent_ai_degraded sampleExtracted (by decide)).1
  · exact (enrichment_absent_ai_degraded sampleExtracted (by decide)).2.2.2.2.2.2.1

/-! ## Claim C8 (corrected) -/

/-- C8 counterexample: the claim says a failed secondary page-metadata
fetch does not fail a video extraction whose transcript fetch succeeded,
yielding a synthesized `"Video: <id>"` title; but the batch extractor's
`requests.RequestException` handler fails the whole extraction. -/
theorem youtube_title_fetch_failure_counterexample :
    extract_youtube_content (TranscriptOutcome.segments ["hello", "world"])
        (PageFetch.exn "timeout") "https://www.youtube.com/watch?v=abc123" =
      ExtractResult.err "Failed to fetch YouTube page: timeout" ∧
    ExtractResult.err "Failed to fetch YouTube page: timeout" ≠
      ExtractResult.ok "Video: abc123" "hello world" :=
  ⟨by decide, by decide⟩

/-- C8 amended: in the batch extractor, when the transcript fetch
succeeds, a successful secondary page fetch yields the `og:title` content
with sentinel `"No Title Found"` only when the tag is absent, while a
raised page fetch fails the whole extraction with
`"Failed to fetch YouTube page: ..."`; the GUI worker's extractor makes no
secondary fetch at all and titles every successful extraction
`"YouTube Video: <id>"`. -/
theorem youtube_secondary_fetch_behavior (url : String) (texts : List String)
    (og : Option String) (m : String)
    (hvid : truthyOpt (extract_video_id_from_url url) = true) :
    extract_youtube_content (TranscriptOutcome.segments texts) (PageFetch.ok og) url =
      ExtractResult.ok (og.getD "No Title Found") (String.intercalate " " texts) ∧
    extract_youtube_content (TranscriptOutcome.segments texts) (PageFetch.exn m) url =
      ExtractResult.err ("Failed to fetch YouTube page: " ++ m) ∧
    (∀ vid : List Char, AgentWorker_video_id url = Except.ok (some vid) →
      vid.isEmpty = false →
      AgentWorker_extract_youtube_content (TranscriptOutcome.segments texts) url =
        ExtractResult.ok ("YouTube Video: " ++ String.mk vid)
          (String.intercalate " " texts)) := by
  refine ⟨?_, ?_, ?_⟩
  · simp [extract_youtube_content, hvid]
  · simp [extract_youtube_content, hvid]
  · intro vid hv he
    simp [AgentWorker_extract_youtube_content, hv, he]

/-- Witness for C8 (amended): on the sample watch-URL with a successful
transcript, a page whose `og:title` is present titles the record with it,
and a raised page fetch produces the fetch-failure error. -/
theorem youtube_secondary_fetch_behavior_witness :
    truthyOpt (extract_video_id_from_url "https://www.youtube.com/watch?v=xyz9") = true ∧
    extract_youtube_content (TranscriptOutcome.segments ["a", "b"])
        (PageFetch.ok (some "My Title")) "https://www.youtube.com/watch?v=xyz9" =
      ExtractResult.ok ((some "My Title").getD "No Title Found")
        (String.intercalate " " ["a", "b"]) ∧
    extract_youtube_content (TranscriptOutcome.segments ["a", "b"])
        (PageFetch.exn "down") "https://www.youtube.com/watch?v=xyz9" =
      ExtractResult.err ("Failed to fetch YouTube page: " ++ "down") := by
  refine ⟨by decide, ?_, ?_⟩
  · exact (youtube_secondary_fetch_behavior "https://www.youtube.com/watch?v=xyz9"
      ["a", "b"] (some "My Title") "down" (by decide)).1
  · exact (youtube_secondary_fetch_behavior "https://www.youtube.com/watch?v=xyz9"
      ["a", "b"] (some "My Title") "down" (by decide)).2.1

/-! ## Claim C9 (corrected) -/

/-- C9 counterexample: the claim says a document with no embedded title
gets a filename-derived title with underscore and hyphen separators
replaced by spaces; the batch parser does this, but the GUI worker's
parser only strips the extension and keeps the separators. -/
theorem gui_pdf_title_fallback_counterexample :
    AgentWorker_extract_pdf_content none none ["body"] "/tmp/temp/my_doc.pdf" =
      ExtractResult.ok "my_doc" "body" ∧
    ("my_doc" : String) ≠ "my doc" ∧
    extract_pdf_content none none ["body"] "/tmp/temp/my_doc.pdf" =
      ExtractResult.ok "my doc" "body\n" :=
  ⟨by decide, by decide, by decide⟩

/-- C9 amended: when the embedded metadata has no truthy title (absent
metadata, absent title, or empty title), the batch parser titles the
document with the file's basename, underscores and hyphens replaced by
spaces and
the extension stripped, while the GUI worker's parser uses the basename
with only the extension stripped (separators kept). -/
theorem pdf_title_fallback (fp : String) (pages : List String)
    (metadata : Option (Option String))
    (hmeta : metaTitleTruthy metadata = false) :
    extract_pdf_content none metadata pages fp =
      ExtractResult.ok (pdf_fallback_title fp)
        (String.join (pages.map (fun p => p ++ "\n"))) ∧
    AgentWorker_extract_pdf_content none metadata pages fp =
      ExtractResult.ok (String.mk (beforeLastDot (basenameL fp.data)))
        (String.join pages) ∧
    pdf_fallback_title fp =
      String.mk (beforeLastDot ((basenameL fp.data).map
        (fun c => if c = '_' || c = '-' then ' ' else c))) := by
  refine ⟨?_, ?_, rfl⟩
  · simp [extract_pdf_content, hmeta]
  · simp [AgentWorker_extract_pdf_content, hmeta]

/-- Witness for C9 (amended): a staged file named
`annual_report-2020.pdf` with title-less metadata is titled
`"annual report 2020"` by the batch parser. -/
theorem pdf_title_fallback_witness :
    metaTitleTruthy none = false ∧
    extract_pdf_content none none ["p1", "p2"] "/tmp/temp/annual_report-2020.pdf" =
      ExtractResult.ok (pdf_fallback_title "/tmp/temp/annual_report-2020.pdf")
        (String.join (["p1", "p2"].map (fun p => p ++ "\n"))) ∧
    pdf_fallback_title "/tmp/temp/annual_report-2020.pdf" = "annual report 2020" := by
  refine ⟨by decide, ?_, by decide⟩
  exact (pdf_title_fallback "/tmp/temp/annual_report-2020.pdf" ["p1", "p2"] none
    (by decide)).1

/-! ## Claim C10 (corrected) -/

/-- An URL path ending in `/` has an empty basename. -/
theorem basenameL_of_endsWith_slash (p : List Char)
    (h : endsWithL ['/'] p = true) : basenameL p = [] := by
  rw [endsWithL, List.isSuffixOf_iff_suffix] at h
  obtain ⟨q, hq⟩ := h
  rw [← hq]
  unfold basenameL
  rw [List.reverse_append]
  simp

/-- C10 counterexample: the claim says the staged filename always has
`".pdf"` appended when not already present; the GUI worker's download
stages the raw basename unchanged — for a probed document URL without the
extension the staged path lacks `".pdf"`. -/
theorem gui_download_filename_counterexample :
    AgentWorker_get_content_type (ProbeResult.ok "application/pdf")
      "https://x.com/files/paper" = "pdf" ∧
    AgentWorker_download_pdf_filepath "/tmp/temp" "https://x.com/files/paper" =
      "/tmp/temp/paper" ∧
    ("/tmp/temp/paper" : String) ≠ "/tmp/temp/paper.pdf" :=
  ⟨by decide, by decide, by decide⟩

/-- C10 amended: the batch `download_pdf` stages at the basename of the
URL's path with `".pdf"` appended when not already present
case-insensitively — so every URL whose path ends in `/` stages at the
staging folder joined with `".pdf"`, the same file for all such URLs of a
batch; the GUI worker's `download_pdf` instead stages at the raw basename
with no appending. -/
theorem download_staged_filename (folder url : String) :
    (endsWithL ".pdf".data (lowerL (basenameL (urlparse url).path)) = true →
      download_pdf_filepath folder url =
        folder ++ "/" ++ String.mk (basenameL (urlparse url).path)) ∧
    (endsWithL ".pdf".data (lowerL (basenameL (urlparse url).path)) = false →
      download_pdf_filepath folder url =
        folder ++ "/" ++ String.mk (basenameL (urlparse url).path ++ ".pdf".data)) ∧
    (endsWithL ['/'] (urlparse url).path = true →
      download_pdf_filepath folder url = folder ++ "/" ++ ".pdf") ∧
    (∀ url2 : String, endsWithL ['/'] (urlparse url).path = true →
      endsWithL ['/'] (urlparse url2).path = true →
      download_pdf_filepath folder url = download_pdf_filepath folder url2) ∧
    AgentWorker_download_pdf_filepath folder url =
      folder ++ "/" ++ String.mk (basenameL (urlparse url).path) := by
  have hpdfpath : ∀ u : String, endsWithL ['/'] (urlparse u).path = true →
      download_pdf_filepath folder u = folder ++ "/" ++ ".pdf" := by
    intro u hs
    have hb := basenameL_of_endsWith_slash _ hs
    unfold download_pdf_filepath download_pdf_filename
    rw [hb]
    congr 1
  refine ⟨?_, ?_, hpdfpath url, ?_, rfl⟩
  · intro h
    unfold download_pdf_filepath download_pdf_filename
    rw [if_pos h]
  · intro h
    unfold download_pdf_filepath download_pdf_filename
    rw [if_neg (by simp [h])]
  · intro url2 h1 h2
    rw [hpdfpath url h1, hpdfpath url2 h2]

/-- Witness for C10 (amended): a directory URL (path ending in `/`)
stages at `<folder>/.pdf`. -/
theorem download_staged_filename_witness :
    endsWithL ['/'] (urlparse "https://x.com/dir/").path = true ∧
    download_pdf_filepath "/tmp/temp" "https://x.com/dir/" =
      "/tmp/temp" ++ "/" ++ ".pdf" := by
  refine ⟨by decide, ?_⟩
  exact (download_staged_filename "/tmp/temp" "https://x.com/dir/").2.2.1 (by decide)

/-- Witness for C5: a concrete document batch in which the record is
`"Downloaded"` with type `"pdf"` after pass 1 and `"Content Extracted"`
after pass 2, exercising the converse direction of the invariant. -/
theorem document_downloaded_invariant_witness :
    ((pass2 pdfEnv (pass1 pdfEnv ["https://x.example/paper.pdf"]).1
        (pass1 pdfEnv ["https://x.example/paper.pdf"]).2).getD 0
        defaultRecord).content_type = "pdf" ∧
    ((pass2 pdfEnv (pass1 pdfEnv ["https://x.example/paper.pdf"]).1
        (pass1 pdfEnv ["https://x.example/paper.pdf"]).2).getD 0
        defaultRecord).status = "Content Extracted" ∧
    ((pass1 pdfEnv ["https://x.example/paper.pdf"]).1.getD 0 defaultRecord).status =
      "Downloaded" := by
  refine ⟨by decide, by decide, ?_⟩
  exact (document_downloaded_invariant pdfEnv ["https://x.example/paper.pdf"] 0).2.2.2
    (by decide) (by decide)

end SnippetsAgent
